import Mathlib

/-!
# FinanceAI — verification of the core algorithmic components

Shallow embedding of the FinanceAI repository's core logic:

* the reconciliation merge (`mergeTransactions` in `src/App.tsx`),
* the stats aggregator (`buildStats` and its helpers in the insights module),
* the insight rule engine (`buildInsights`, `forecastMonthEnd`, `topShare`),
* the import pipeline (per-row CSV/JSON validation, backup import).

JavaScript numbers are modelled as exact rationals (`Rat`); all divisions in
the source are guarded against zero, so rational division agrees with the
floating-point control flow on those paths.  Calendar arithmetic
(`Date` parsing of `YYYY-MM-DD` strings, `getDay`, `setMonth` normalisation)
is modelled against the ECMAScript specification with dates interpreted in
UTC.  String helpers (`trim`, `toLowerCase`, `slice`) are modelled directly
on the character list underlying `String`.
-/

/-- The two transaction kinds (`type` field): `'income' | 'expense'`. -/
inductive TxType where
  | income : TxType
  | expense : TxType
deriving DecidableEq, Repr

/-- The `Transaction` entity from `src/types.ts`. -/
structure Transaction where
  id : String
  date : String
  type : TxType
  category : String
  amount : Rat
  note : Option String
deriving DecidableEq, Repr

/-- A category/total pair of the stats rankings (`StatCategory`). -/
structure StatCategory where
  category : String
  total : Rat
deriving DecidableEq, Repr

/-- The derived `Stats` snapshot type. -/
structure Stats where
  incomeMonth : Rat
  expenseMonth : Rat
  netMonth : Rat
  incomePrevMonth : Rat
  expensePrevMonth : Rat
  netPrevMonth : Rat
  topExpensesMonth : List StatCategory
  topExpensesLast30 : List StatCategory
  biggestExpense : Option Transaction
  avgDailyExpense30 : Rat
  dayPeak : Option String
  incomeWeek : Rat
  expenseWeek : Rat
  daysInMonth : Nat
  dayOfMonth : Nat
deriving DecidableEq, Repr

/-- A calendar date as carried by a JavaScript `Date` value
(`getFullYear()`, `getMonth() + 1`, `getDate()`); month is 1-based. -/
structure Date where
  year : Nat
  month : Nat
  day : Nat
deriving DecidableEq, Repr

/-! ## String helpers (ECMAScript string operations on the character list) -/

/-- `s.slice(0, n)` on a JavaScript string. -/
def sliceStr (s : String) (n : Nat) : String :=
  String.mk (s.data.take n)

/-- `String.prototype.trim()`: strip whitespace from both ends. -/
def trimStr (s : String) : String :=
  String.mk (((s.data.dropWhile Char.isWhitespace).reverse.dropWhile Char.isWhitespace).reverse)

/-- `String.prototype.toLowerCase()` for the ASCII letters that occur in the
data at issue (`income`, `expense`, category names). -/
def lowerStr (s : String) : String :=
  String.mk (s.data.map fun c => if c.isUpper then Char.ofNat (c.toNat + 32) else c)

/-- `String(n).padStart(2, '0')` for a month number. -/
def pad2 (n : Nat) : String :=
  if n < 10 then "0" ++ toString n else toString n

/-! ## Calendar arithmetic (ECMAScript `Date`, proleptic Gregorian, UTC) -/

/-- Gregorian leap-year rule. -/
def isLeapYear (y : Nat) : Bool :=
  (y % 4 == 0 && y % 100 != 0) || y % 400 == 0

/-- Number of days in a calendar month; models
`new Date(y, m, 0).getDate()` for `1 ≤ m ≤ 12`. -/
def daysInMonthOf (y m : Nat) : Nat :=
  if m == 2 then (if isLeapYear y then 29 else 28)
  else if m == 4 || m == 6 || m == 9 || m == 11 then 30
  else 31

/-- Days elapsed since 1970-01-01 for a Gregorian date (`y ≥ 1`);
the standard civil-from-days correspondence used by ECMAScript `Date`. -/
def daysFromCivil (y m d : Nat) : Int :=
  let ys : Nat := if m ≤ 2 then y - 1 else y
  let era : Nat := ys / 400
  let yoe : Nat := ys % 400
  let mp : Nat := if 2 < m then m - 3 else m + 9
  let doy : Nat := (153 * mp + 2) / 5 + d - 1
  let doe : Nat := yoe * 365 + yoe / 4 - yoe / 100 + doy
  (era * 146097 + doe : Int) - 719468

/-- Numeric value of a decimal digit character. -/
def digitVal (c : Char) : Nat := c.toNat - 48

/-- Parse a `YYYY-MM-DD` string into (year, month, day); `none` models the
`Invalid Date` (`NaN` timestamp) produced by `new Date(s)` on anything that
is not a valid ISO calendar date. -/
def parseYMD? (s : String) : Option (Nat × Nat × Nat) :=
  match s.data with
  | [y1, y2, y3, y4, h1, m1, m2, h2, d1, d2] =>
    if y1.isDigit && y2.isDigit && y3.isDigit && y4.isDigit && h1 == '-' &&
       m1.isDigit && m2.isDigit && h2 == '-' && d1.isDigit && d2.isDigit then
      let y := 1000 * digitVal y1 + 100 * digitVal y2 + 10 * digitVal y3 + digitVal y4
      let m := 10 * digitVal m1 + digitVal m2
      let d := 10 * digitVal d1 + digitVal d2
      if 1 ≤ m && m ≤ 12 && 1 ≤ d && d ≤ daysInMonthOf y m then some (y, m, d) else none
    else none
  | _ => none

/-- `new Date(s).getTime()` in milliseconds (UTC midnight); `none` is `NaN`. -/
def dateMs? (s : String) : Option Int :=
  (parseYMD? s).map fun p => daysFromCivil p.1 p.2.1 p.2.2 * 86400000

/-- `new Date(s).getDay()`: weekday index 0 (Sunday) .. 6 (Saturday);
1970-01-01 was a Thursday (index 4).  Only used on parseable dates. -/
def weekdayOf (s : String) : Nat :=
  match parseYMD? s with
  | some (y, m, d) => ((daysFromCivil y m d + 4).emod 7).toNat
  | none => 0

/-- `dateKey` from the insights module:
the string `getFullYear() + '-' + String(getMonth() + 1).padStart(2, '0')`. -/
def dateKey (d : Date) : String :=
  toString d.year ++ "-" ++ pad2 d.month

/-- ECMAScript `setMonth` normalisation for a date whose day is at most 31:
the (0-based, possibly out-of-range) month index is folded into the year by
floor division, and a day past the end of the resulting month rolls over
into the following month. -/
def setMonthNorm (year : Nat) (m0 : Int) (day : Nat) : Date :=
  let ym : Int := (year : Int) * 12 + m0
  let y1 : Nat := (ym.ediv 12).toNat
  let m1 : Nat := (ym.emod 12).toNat + 1
  if day ≤ daysInMonthOf y1 m1 then ⟨y1, m1, day⟩
  else if m1 = 12 then ⟨y1 + 1, 1, day - 31⟩
  else ⟨y1, m1 + 1, day - daysInMonthOf y1 m1⟩

/-- `addMonths` from the insights module:
`const copy = new Date(d); copy.setMonth(copy.getMonth() + n); return copy;`. -/
def addMonths (d : Date) (n : Int) : Date :=
  setMonthNorm d.year ((d.month : Int) - 1 + n) d.day

/-- The current-month key computed by `buildStats`: `dateKey(now)`. -/
def currentMonthKeyOf (now : Date) : String := dateKey now

/-- The previous-month key computed by `buildStats`:
`dateKey(addMonths(now, -1))`. -/
def prevMonthKeyOf (now : Date) : String := dateKey (addMonths now (-1))

/-! ## Rational arithmetic

JavaScript number arithmetic is modelled as exact rational arithmetic.  The
operations are spelled out on numerator/denominator via `mkRat` (so that
they evaluate by kernel reduction on concrete inputs); the bridge lemmas
`rAdd_eq` etc. below identify them with the standard field operations on
`ℚ` for algebraic reasoning. -/

/-- Rational addition via `mkRat`. -/
def rAdd (a b : Rat) : Rat :=
  mkRat (a.num * b.den + b.num * a.den) (a.den * b.den)

/-- Rational subtraction via `mkRat`. -/
def rSub (a b : Rat) : Rat :=
  mkRat (a.num * b.den - b.num * a.den) (a.den * b.den)

/-- Rational multiplication via `mkRat`. -/
def rMul (a b : Rat) : Rat :=
  mkRat (a.num * b.num) (a.den * b.den)

/-- Rational division via `Rat.divInt`. -/
def rDiv (a b : Rat) : Rat :=
  Rat.divInt (a.num * (b.den : Int)) ((a.den : Int) * b.num)

/-- `Math.round` on an exact rational: round half toward positive infinity,
i.e. the floor of `x + 1/2` (floor division of numerator by denominator). -/
def jsRound (x : Rat) : Int :=
  (rAdd x (mkRat 1 2)).num.fdiv ((rAdd x (mkRat 1 2)).den : Int)

/-! ## Association-list models of JavaScript objects and `Map`s -/

/-- `obj[k] = v` on a string-keyed JavaScript object: update in place if the
key exists (enumeration order is insertion order), otherwise append. -/
def objSet : List (String × Rat) → String → Rat → List (String × Rat)
  | [], k, v => [(k, v)]
  | (k0, v0) :: rest, k, v =>
    if k0 = k then (k, v) :: rest else (k0, v0) :: objSet rest k v

/-- `obj[k] || 0` on a string-keyed JavaScript object. -/
def objGet : List (String × Rat) → String → Rat
  | [], _ => 0
  | (k0, v0) :: rest, k => if k0 = k then v0 else objGet rest k

/-- `obj[k] = v` on a JavaScript object with small integer keys: such keys
enumerate in ascending numeric order, so the list is kept key-sorted. -/
def numSet : List (Nat × Rat) → Nat → Rat → List (Nat × Rat)
  | [], k, v => [(k, v)]
  | (k0, v0) :: rest, k, v =>
    if k = k0 then (k, v) :: rest
    else if k < k0 then (k, v) :: (k0, v0) :: rest
    else (k0, v0) :: numSet rest k v

/-- `obj[k] || 0` on an integer-keyed JavaScript object. -/
def numGet : List (Nat × Rat) → Nat → Rat
  | [], _ => 0
  | (k0, v0) :: rest, k => if k = k0 then v0 else numGet rest k

/-! ## Sorting (JavaScript `Array.prototype.sort` is stable) -/

/-- Descending-by-total order used by `sortedEntries`'s comparator
`(a, b) => b.total - a.total`. -/
def descCat (a b : StatCategory) : Prop := b.total ≤ a.total

instance : DecidableRel descCat := fun a b => inferInstanceAs (Decidable (b.total ≤ a.total))

instance : IsTotal StatCategory descCat := ⟨fun a b => le_total b.total a.total⟩

instance : IsTrans StatCategory descCat := ⟨fun _ _ _ h1 h2 => le_trans h2 h1⟩

/-- Descending-by-value order used on the weekday-total entries. -/
def descPair (a b : Nat × Rat) : Prop := b.2 ≤ a.2

instance : DecidableRel descPair := fun a b => inferInstanceAs (Decidable (b.2 ≤ a.2))

instance : IsTotal (Nat × Rat) descPair := ⟨fun a b => le_total b.2 a.2⟩

instance : IsTrans (Nat × Rat) descPair := ⟨fun _ _ _ h1 h2 => le_trans h2 h1⟩

/-- `sortedEntries`: map the accumulated totals to `{category, total}` records
and sort them descending by total (stable, as in JavaScript). -/
def sortedEntries (m : List (String × Rat)) : List StatCategory :=
  List.insertionSort descCat (m.map fun p => ⟨p.1, p.2⟩)

/-- The Portuguese weekday names indexed by `getDay()`. -/
def dayNames : List String :=
  ["domingo", "segunda-feira", "terça-feira", "quarta-feira", "quinta-feira",
   "sexta-feira", "sábado"]

/-- The `dayPeak` computation: sort the weekday entries descending by value
(stably) and name the weekday of the first entry, if any. -/
def dayPeakOf (spend : List (Nat × Rat)) : Option String :=
  match List.insertionSort descPair spend with
  | [] => none
  | (k, _) :: _ => some (dayNames.getD k "")

/-! ## The stats aggregator (`buildStats`) -/

/-- The running accumulators of `buildStats`'s single pass. -/
structure Accum where
  incomeMonth : Rat
  expenseMonth : Rat
  incomePrevMonth : Rat
  expensePrevMonth : Rat
  incomeWeek : Rat
  expenseWeek : Rat
  byCatMonth : List (String × Rat)
  byCat30 : List (String × Rat)
  biggestExpense : Option Transaction
  sumExpense30 : Rat
  countExpense30 : Nat
  spendByWeekday : List (Nat × Rat)
deriving DecidableEq, Repr

/-- All accumulators start empty/zero. -/
def initAcc : Accum := ⟨0, 0, 0, 0, 0, 0, [], [], none, 0, 0, []⟩

/-- `new Date(t.date).getTime() >= cutoff`; an unparseable date has a `NaN`
timestamp, and `NaN >= cutoff` is false. -/
def inWindow (cutoff : Int) (t : Transaction) : Bool :=
  match dateMs? t.date with
  | some time => decide (cutoff ≤ time)
  | none => false

/-- Current-month section of the loop body: month income/expense and the
per-category month totals (expenses contribute their amount, income 0). -/
def stepMonth (ck : String) (t : Transaction) (a : Accum) : Accum :=
  if sliceStr t.date 7 = ck then
    let a1 := if t.type = TxType.income
      then { a with incomeMonth := rAdd a.incomeMonth t.amount }
      else { a with expenseMonth := rAdd a.expenseMonth t.amount }
    let catv := rAdd (objGet a1.byCatMonth t.category)
      (if t.type = TxType.expense then t.amount else 0)
    { a1 with byCatMonth := objSet a1.byCatMonth t.category catv }
  else a

/-- Previous-month section of the loop body. -/
def stepPrev (pk : String) (t : Transaction) (a : Accum) : Accum :=
  if sliceStr t.date 7 = pk then
    if t.type = TxType.income
      then { a with incomePrevMonth := rAdd a.incomePrevMonth t.amount }
      else { a with expensePrevMonth := rAdd a.expensePrevMonth t.amount }
  else a

/-- Trailing-30-day section of the loop body: expense sum/count, 30-day
category totals, weekday totals, and the biggest expense (first occurrence
wins on an exact tie, since the incumbent is replaced only on `>`). -/
def step30 (start30 : Int) (t : Transaction) (a : Accum) : Accum :=
  if inWindow start30 t then
    let a1 := if t.type = TxType.expense
      then { a with sumExpense30 := rAdd a.sumExpense30 t.amount,
                    countExpense30 := a.countExpense30 + 1 }
      else a
    let catv := rAdd (objGet a1.byCat30 t.category)
      (if t.type = TxType.expense then t.amount else 0)
    let a2 := { a1 with byCat30 := objSet a1.byCat30 t.category catv }
    let wdv := rAdd (numGet a2.spendByWeekday (weekdayOf t.date))
      (if t.type = TxType.expense then t.amount else 0)
    let a3 := { a2 with spendByWeekday := numSet a2.spendByWeekday (weekdayOf t.date) wdv }
    if t.type = TxType.expense then
      { a3 with biggestExpense :=
          match a3.biggestExpense with
          | none => some t
          | some b => if b.amount < t.amount then some t else some b }
    else a3
  else a

/-- Trailing-7-day section of the loop body. -/
def step7 (start7 : Int) (t : Transaction) (a : Accum) : Accum :=
  if inWindow start7 t then
    if t.type = TxType.income
      then { a with incomeWeek := rAdd a.incomeWeek t.amount }
      else { a with expenseWeek := rAdd a.expenseWeek t.amount }
  else a

/-- One iteration of `tx.forEach` in `buildStats`. -/
def accStep (ck pk : String) (start30 start7 : Int) (a : Accum) (t : Transaction) : Accum :=
  step7 start7 t (step30 start30 t (stepPrev pk t (stepMonth ck t a)))

/-- The accumulator state after `buildStats`'s pass over the whole input.
`now` carries the calendar fields of the reference instant and `nowMs` its
epoch-milliseconds value (the source reads both from the same clock). -/
def statsAcc (tx : List Transaction) (now : Date) (nowMs : Int) : Accum :=
  tx.foldl
    (accStep (currentMonthKeyOf now) (prevMonthKeyOf now)
      (nowMs - 30 * 86400000) (nowMs - 7 * 86400000))
    initAcc

/-- The `spendByWeekday` table accumulated by `buildStats`. -/
def spendByWeekday30 (tx : List Transaction) (now : Date) (nowMs : Int) : List (Nat × Rat) :=
  (statsAcc tx now nowMs).spendByWeekday

/-- `buildStats`: assemble the `Stats` snapshot from the accumulators. -/
def buildStats (tx : List Transaction) (now : Date) (nowMs : Int) : Stats :=
  let a := statsAcc tx now nowMs
  { incomeMonth := a.incomeMonth
    expenseMonth := a.expenseMonth
    netMonth := rSub a.incomeMonth a.expenseMonth
    incomePrevMonth := a.incomePrevMonth
    expensePrevMonth := a.expensePrevMonth
    netPrevMonth := rSub a.incomePrevMonth a.expensePrevMonth
    topExpensesMonth := sortedEntries a.byCatMonth
    topExpensesLast30 := sortedEntries a.byCat30
    biggestExpense := a.biggestExpense
    avgDailyExpense30 := if a.countExpense30 ≠ 0 then rDiv a.sumExpense30 30 else 0
    dayPeak := dayPeakOf a.spendByWeekday
    incomeWeek := a.incomeWeek
    expenseWeek := a.expenseWeek
    daysInMonth := daysInMonthOf now.year now.month
    dayOfMonth := now.day }

/-! ## The insight rule engine (`buildInsights` and helpers) -/

/-- Decimal rendering of a rational, used where the source renders a number
into an insight string (`toFixed`, template interpolation).  The exact
locale rendering is not modelled; no claim depends on the numeral text. -/
def ratStr (x : Rat) : String :=
  toString x.num ++ (if x.den == 1 then "" else "/" ++ toString x.den)

/-- The `money` currency formatter; the `Intl.NumberFormat` rendering is
modelled opaquely (the fraction-digit argument does not change which
insights are emitted). -/
def money (v : Rat) (_frac : Nat := 0) : String :=
  "R$ " ++ ratStr v

/-- `topShare`: share of the month's expense held by the top two
categories; `null` when the expense total is zero (JavaScript falsiness of
`expenseTotal`). -/
def topShare (cats : List StatCategory) (expenseTotal : Rat) : Option Rat :=
  if expenseTotal = 0 then none
  else some (rDiv ((cats.take 2).foldl (fun s c => rAdd s c.total) 0) expenseTotal)

/-- `forecastMonthEnd`: linear projection of the month-end balance;
`null` when `dayOfMonth` is 0. -/
def forecastMonthEnd (stats : Stats) : Option Int :=
  if stats.dayOfMonth = 0 then none
  else
    let pace := rDiv stats.netMonth (stats.dayOfMonth : Rat)
    some (jsRound (rAdd stats.netMonth (rMul pace (rSub (stats.daysInMonth : Rat) (stats.dayOfMonth : Rat)))))

/-- The items pushed by `buildInsights` before the final `slice(0, 12)`:
each numbered block models one emission rule of the source, in order;
a rule contributes one item when its condition holds, none otherwise. -/
def buildInsightsRaw (stats : Stats) : List String :=
  let expenseDelta : Option Rat :=
    if stats.expensePrevMonth > 0 then
      some (rMul (rDiv (rSub stats.expenseMonth stats.expensePrevMonth) stats.expensePrevMonth) 100)
    else none
  let r1 := if stats.expenseMonth > 0 then
      let deltaTxt := match expenseDelta with
        | none => ""
        | some d => ", " ++ (if d ≥ 0 then "+" else "") ++ ratStr d ++ "% vs mês anterior"
      ["Gasto no mês: " ++ money stats.expenseMonth ++ deltaTxt ++ "."]
    else []
  let r2 := match stats.topExpensesMonth with
    | [] => []
    | _ =>
      let top := (stats.topExpensesMonth.take 3).map fun c =>
        c.category ++ " (" ++ money c.total ++ ")"
      ["Maiores despesas: " ++ String.intercalate ", " top ++ "."]
  let r3 := match stats.dayPeak with
    | some dp => if dp = "" then [] else ["Gasto mais alto tende a ocorrer nas " ++ dp ++ "."]
    | none => []
  let r4 := match stats.biggestExpense with
    | some b => ["Maior gasto único: " ++ money b.amount ++ " em " ++ b.category ++ "."]
    | none => []
  let r5 := if stats.avgDailyExpense30 > 0 then
      ["Média diária (30d): " ++ money stats.avgDailyExpense30 2 ++ "."]
    else []
  let r6 := if stats.incomeMonth > 0 then
      let rate := rMul (rDiv stats.expenseMonth stats.incomeMonth) 100
      ["Taxa de consumo: " ++ ratStr rate ++ "% das entradas do mês já foram gastas."]
    else []
  let r7 := match stats.topExpensesMonth with
    | [] => []
    | cat :: _ =>
      if cat.total > 0 ∧ stats.expensePrevMonth > 0 then
        match stats.topExpensesLast30.find? fun c => c.category == cat.category with
        | some prevCat =>
          if prevCat.total > 0 then
            let delta := rMul (rDiv (rSub cat.total prevCat.total) prevCat.total) 100
            if delta > 10 then
              ["Alerta: " ++ cat.category ++ " subiu " ++ ratStr delta ++ "% vs último período."]
            else []
          else []
        | none => []
      else []
  let r8 := if stats.expenseWeek > stats.incomeWeek ∧ rSub stats.expenseWeek stats.incomeWeek > 0 then
      ["Alerta: você gastou " ++ money (rSub stats.expenseWeek stats.incomeWeek) ++
       " a mais do que entrou na última semana."]
    else []
  let r9 := match stats.biggestExpense with
    | some b =>
      if stats.avgDailyExpense30 > 0 ∧ b.amount > rMul stats.avgDailyExpense30 3 then
        ["Despesa fora do padrão: " ++ money b.amount ++ " em " ++ b.category ++ "."]
      else []
    | none => []
  let r10 := match topShare stats.topExpensesMonth stats.expenseMonth with
    | some sh =>
      if sh > mkRat 7 10 then
        ["Concentração alta: " ++ toString (jsRound (rMul sh 100)) ++ "% do gasto em duas categorias."]
      else []
    | none => []
  let r11 := match stats.topExpensesMonth with
    | [] => []
    | cat :: _ =>
      ["Sugestão: reduzir " ++ cat.category ++ " em 20% economiza " ++
       money (rMul cat.total (mkRat 2 10)) ++ " este mês."]
  let r12 := if stats.netMonth > 0 then
      ["Reserva: seu excedente sugere guardar " ++ money (rDiv stats.netMonth 4) ++ " por semana."]
    else []
  let r13 := match forecastMonthEnd stats with
    | some f => ["Projeção de saldo no fim do mês: " ++ money (f : Rat) ++ "."]
    | none => []
  r1 ++ r2 ++ r3 ++ r4 ++ r5 ++ r6 ++ r7 ++ r8 ++ r9 ++ r10 ++ r11 ++ r12 ++ r13

/-- `buildInsights`: the emitted items, defensively truncated by
`items.slice(0, 12)`. -/
def buildInsights (stats : Stats) : List String :=
  (buildInsightsRaw stats).take 12

/-! ## The reconciliation merge (`mergeTransactions` in `src/App.tsx`) -/

/-- `makeKey`: the content key string
`date + '|' + category + '|' + amount + '|' + (note || '')`. -/
def makeKey (t : Transaction) : String :=
  t.date ++ "|" ++ t.category ++ "|" ++ ratStr t.amount ++ "|" ++ t.note.getD ""

/-- The two insertion-ordered `Map`s and the counters of the merge loop.
`byId` keeps key/value pairs in insertion order (a JavaScript `Map`);
`byKey` is only ever queried for membership, so just its keys are kept. -/
structure MergeSt where
  byId : List (String × Transaction)
  byKey : List String
  added : Nat
  skipped : Nat
deriving DecidableEq, Repr

/-- `Map.prototype.set` on the id-index: overwrite in place, else append. -/
def mapSet : List (String × Transaction) → String → Transaction → List (String × Transaction)
  | [], k, v => [(k, v)]
  | (k0, v0) :: rest, k, v =>
    if k0 = k then (k, v) :: rest else (k0, v0) :: mapSet rest k v

/-- `Map.prototype.set` on the key-index, membership view. -/
def keySet (ks : List String) (k : String) : List String :=
  if k ∈ ks then ks else ks ++ [k]

/-- Seeding of both indexes from the existing collection
(`existing.forEach(...)`). -/
def mergeInit (existing : List Transaction) : MergeSt :=
  { byId := existing.foldl (fun m t => mapSet m t.id t) []
    byKey := existing.foldl (fun ks t => keySet ks (makeKey t)) []
    added := 0
    skipped := 0 }

/-- One iteration of `incoming.forEach(...)`: skip when the id is already
indexed, else skip when the content key is already indexed, else accept
into both indexes and count. -/
def mergeStep (st : MergeSt) (t : Transaction) : MergeSt :=
  if t.id ∈ st.byId.map Prod.fst then { st with skipped := st.skipped + 1 }
  else if makeKey t ∈ st.byKey then { st with skipped := st.skipped + 1 }
  else { byId := mapSet st.byId t.id t
         byKey := keySet st.byKey (makeKey t)
         added := st.added + 1
         skipped := st.skipped }

/-- The merge state after processing the whole incoming batch. -/
def mergeState (existing incoming : List Transaction) : MergeSt :=
  incoming.foldl mergeStep (mergeInit existing)

/-- The `{merged, added, skipped}` result of `mergeTransactions`. -/
structure MergeResult where
  merged : List Transaction
  added : Nat
  skipped : Nat
deriving DecidableEq, Repr

/-- `mergeTransactions`: merged collection is `Array.from(byId.values())`
(insertion order), plus the added/skipped counters. -/
def mergeTransactions (existing incoming : List Transaction) : MergeResult :=
  let st := mergeState existing incoming
  ⟨st.byId.map Prod.snd, st.added, st.skipped⟩

/-- State of the merge process as described by the specification text. -/
structure ClaimSt where
  keys : List String
  accepted : List Transaction
  added : Nat
  skipped : Nat
deriving DecidableEq, Repr

/-- Modelled from the spec (refinement comparison, not from the source):
"a candidate is skipped if its id already exists in the EXISTING collection,
or if its content key already exists among processed records (existing plus
already-accepted candidates); otherwise it is accepted and counted."
This differs from `mergeTransactions` in checking candidate ids only
against the existing collection. -/
def mergeTransactionsClaimed (existing incoming : List Transaction) : MergeResult :=
  let existingIds := existing.map Transaction.id
  let final := incoming.foldl
    (fun (st : ClaimSt) t =>
      if t.id ∈ existingIds then { st with skipped := st.skipped + 1 }
      else if makeKey t ∈ st.keys then { st with skipped := st.skipped + 1 }
      else { keys := st.keys ++ [makeKey t]
             accepted := st.accepted ++ [t]
             added := st.added + 1
             skipped := st.skipped })
    ⟨existing.map makeKey, [], 0, 0⟩
  ⟨existing ++ final.accepted, final.added, final.skipped⟩

/-! ## The import pipeline (CSV rows, JSON rows, backup envelope) -/

/-- The raw per-record fields after header lookup and `String(...)`
coercion: `type`, `date`, `category`, `note`, `id` as raw strings and
`amount` as the result of `Number(...)` (`none` models `NaN`). -/
structure RawRow where
  type : String
  date : String
  category : String
  amount : Option Rat
  note : String
  id : String
deriving DecidableEq, Repr

/-- The `{data, errors}` pair returned by the import functions. -/
structure ImportResult where
  data : List Transaction
  errors : List String
deriving DecidableEq, Repr

/-- The row cap `MAX_ROWS = 2000`. -/
def MAX_ROWS : Nat := 2000

/-- The file-size cap `MAX_FILE_BYTES = 2 * 1024 * 1024`. -/
def MAX_FILE_BYTES : Nat := 2 * 1024 * 1024

/-- The regex test `/^\d{4}-\d{2}-\d{2}$/` (format only, no range check). -/
def isoDateFormat (s : String) : Bool :=
  match s.data with
  | [y1, y2, y3, y4, h1, m1, m2, h2, d1, d2] =>
    y1.isDigit && y2.isDigit && y3.isDigit && y4.isDigit && h1 == '-' &&
    m1.isDigit && m2.isDigit && h2 == '-' && d1.isDigit && d2.isDigit
  | _ => false

/-- Per-row validation of `importCsv` (row `idx` of the parsed body;
`genId` stands for the `crypto.randomUUID()` value drawn for this row):
required fields, then the type check, then the date-format check. -/
def csvProcessRow (genId : String) (idx : Nat) (r : RawRow) : Except String Transaction :=
  let line := idx + 2
  let rawType := lowerStr (trimStr r.type)
  let rawDate := trimStr r.date
  let rawCategory := trimStr r.category
  let note := trimStr r.note
  let rid := trimStr r.id
  if rawDate = "" ∨ rawCategory = "" ∨ rawType = "" ∨ r.amount.isNone then
    Except.error ("Linha " ++ toString line ++ ": dados obrigatorios ausentes ou invalidos.")
  else if rawType ≠ "income" ∧ rawType ≠ "expense" then
    Except.error ("Linha " ++ toString line ++
      ": tipo deve ser income ou expense (valor recebido: " ++ rawType ++ ").")
  else if !isoDateFormat rawDate then
    Except.error ("Linha " ++ toString line ++
      ": data deve estar em YYYY-MM-DD (recebido: " ++ rawDate ++ ").")
  else
    Except.ok
      { id := if rid = "" then genId else rid
        date := rawDate
        type := if rawType = "income" then TxType.income else TxType.expense
        category := rawCategory
        amount := r.amount.getD 0
        note := some note }

/-- Per-row validation of `importJson` (item `idx`, 1-based line numbers):
required fields, then the date-format check, then the type check. -/
def jsonProcessRow (genId : String) (idx : Nat) (r : RawRow) : Except String Transaction :=
  let line := idx + 1
  let rawType := lowerStr (trimStr r.type)
  let rawDate := trimStr r.date
  let rawCategory := trimStr r.category
  let note := trimStr r.note
  let rid := trimStr r.id
  if rawDate = "" ∨ rawCategory = "" ∨ rawType = "" ∨ r.amount.isNone then
    Except.error ("Item " ++ toString line ++ ": dados obrigatorios ausentes ou invalidos.")
  else if !isoDateFormat rawDate then
    Except.error ("Item " ++ toString line ++
      ": data deve estar em YYYY-MM-DD (recebido: " ++ rawDate ++ ").")
  else if rawType ≠ "income" ∧ rawType ≠ "expense" then
    Except.error ("Item " ++ toString line ++
      ": tipo deve ser income ou expense (valor recebido: " ++ rawType ++ ").")
  else
    Except.ok
      { id := if rid = "" then genId else rid
        date := rawDate
        type := if rawType = "income" then TxType.income else TxType.expense
        category := rawCategory
        amount := r.amount.getD 0
        note := some note }

/-- The CSV batch loop: the row-count cap truncates the parsed body first
(appending a single capacity error), then each row is validated and either
collected or reported, the batch continuing either way. -/
def importCsvRows (gen : Nat → String) (rows : List RawRow) : ImportResult :=
  let preErrors : List String :=
    if MAX_ROWS < rows.length then
      ["Arquivo com muitas linhas. Considerar máximo de " ++ toString MAX_ROWS ++ "."]
    else []
  (rows.take MAX_ROWS).enum.foldl
    (fun acc p =>
      match csvProcessRow (gen p.1) p.1 p.2 with
      | Except.ok t => { acc with data := acc.data ++ [t] }
      | Except.error e => { acc with errors := acc.errors ++ [e] })
    { data := [], errors := preErrors }

/-- The JSON batch loop: `parsed.slice(0, MAX_ROWS)` is validated row by
row; a single truncation notice is appended after the loop when the body
exceeded the cap. -/
def importJsonRows (gen : Nat → String) (rows : List RawRow) : ImportResult :=
  let base := (rows.take MAX_ROWS).enum.foldl
    (fun acc p =>
      match jsonProcessRow (gen p.1) p.1 p.2 with
      | Except.ok t => { acc with data := acc.data ++ [t] }
      | Except.error e => { acc with errors := acc.errors ++ [e] })
    { data := [], errors := [] }
  if MAX_ROWS < rows.length then
    { base with errors := base.errors ++
        ["Arquivo truncado para " ++ toString MAX_ROWS ++ " registros."] }
  else base

/-- A parsed backup file body: `version` is `none` when the field is
absent (`undefined`), `transactions` is `none` when the field is not an
array. -/
structure BackupPayload where
  version : Option Int
  transactions : Option (List Transaction)
deriving Repr

/-- `importBackup` from the size check down: a payload of `none` models a
JSON body that fails to parse or is not an object; an invalid envelope is
rejected wholesale; otherwise the records are returned sliced to
`MAX_ROWS` with no errors and no per-record validation. -/
def importBackup (fileSize : Nat) (payload : Option BackupPayload) : ImportResult :=
  if MAX_FILE_BYTES < fileSize then
    { data := [], errors := ["Arquivo excede 2MB."] }
  else
    match payload with
    | none => { data := [], errors := ["Backup inválido ou corrompido."] }
    | some p =>
      if p.version.isNone then { data := [], errors := ["Backup inválido ou corrompido."] }
      else
        match p.transactions with
        | some txs => { data := txs.take MAX_ROWS, errors := [] }
        | none => { data := [], errors := ["Backup inválido ou corrompido."] }

/-! ## Concrete sample data used by counterexamples and witnesses -/

/-- Two incoming candidates sharing an id but with distinct content keys. -/
def t1C1 : Transaction := ⟨"a", "2024-01-01", TxType.expense, "food", 10, none⟩

/-- See `t1C1`: same id, different date/category/amount. -/
def t2C1 : Transaction := ⟨"a", "2024-01-02", TxType.expense, "rent", 20, none⟩

/-- An existing record for the merge witnesses. -/
def eW : Transaction := ⟨"e1", "2024-02-01", TxType.income, "salary", 50, none⟩

/-- A fresh candidate (new id, new content key). -/
def tW : Transaction := ⟨"n1", "2024-02-02", TxType.expense, "food", 5, none⟩

/-- An existing record and a re-identified copy of it (same date, category,
amount and note, different id). -/
def eC4 : Transaction := ⟨"id1", "2024-09-01", TxType.expense, "food", 10, some ""⟩

/-- The re-identified copy of `eC4`. -/
def tC4 : Transaction := ⟨"id2", "2024-09-01", TxType.expense, "food", 10, some ""⟩

/-- A reference instant: 2024-09-15 (a Sunday), midnight UTC. -/
def nowC2 : Date := ⟨2024, 9, 15⟩

/-- Epoch milliseconds of `nowC2`. -/
def nowMsC2 : Int := daysFromCivil 2024 9 15 * 86400000

/-- An income-only transaction dated inside the trailing 30-day window of
`nowC2` (2024-09-10 was a Tuesday). -/
def txIncomeOnly : Transaction := ⟨"i1", "2024-09-10", TxType.income, "salary", 100, none⟩

/-- An expense transaction dated inside the current month of `nowC2`. -/
def txExpenseSep : Transaction := ⟨"x1", "2024-09-12", TxType.expense, "food", 30, none⟩

/-- A future-dated expense relative to `nowC2`. -/
def txFuture : Transaction := ⟨"f1", "2030-01-01", TxType.expense, "viagem", 40, none⟩

/-- A `Stats` value with `netMonth = 300`, `dayOfMonth = 10`,
`daysInMonth = 30` (remaining fields immaterial to the forecast). -/
def statsC5 : Stats :=
  { incomeMonth := 0, expenseMonth := 0, netMonth := 300
    incomePrevMonth := 0, expensePrevMonth := 0, netPrevMonth := 0
    topExpensesMonth := [], topExpensesLast30 := []
    biggestExpense := none, avgDailyExpense30 := 0, dayPeak := none
    incomeWeek := 0, expenseWeek := 0, daysInMonth := 30, dayOfMonth := 10 }

/-- The biggest-expense record of `statsAll13`. -/
def bigTx : Transaction := ⟨"b1", "2024-09-05", TxType.expense, "moradia", 90, none⟩

/-- A `Stats` value engineered so that every one of the 13 emission rules
of `buildInsights` fires. -/
def statsAll13 : Stats :=
  { incomeMonth := 200, expenseMonth := 100, netMonth := 100
    incomePrevMonth := 80, expensePrevMonth := 50, netPrevMonth := 30
    topExpensesMonth := [⟨"moradia", 100⟩], topExpensesLast30 := [⟨"moradia", 50⟩]
    biggestExpense := some bigTx, avgDailyExpense30 := 10
    dayPeak := some "segunda-feira", incomeWeek := 0, expenseWeek := 5
    daysInMonth := 30, dayOfMonth := 10 }

/-- A CSV row whose `type` is `gift` (everything else valid). -/
def giftRow : RawRow := ⟨"gift", "2024-01-05", "food", some 10, "", ""⟩

/-- A CSV row with `type = "Income"` (valid up to case). -/
def incomeRow : RawRow := ⟨"Income", "2024-01-05", "salary", some 25, "pay", "id9"⟩

/-- A constant id generator standing for `crypto.randomUUID()`. -/
def genW : Nat → String := fun i => "gen-" ++ toString i

/-- A backup transaction record, replicated past the row cap. -/
def backupTx : Transaction := ⟨"bk", "2024-03-03", TxType.income, "pay", 1, none⟩

/-- A valid backup payload holding 2001 records. -/
def backupBig : BackupPayload := ⟨some 1, some (List.replicate 2001 backupTx)⟩

/-! ## Bridge lemmas for the rational operations -/

/-- `rAdd` is rational addition. -/
theorem rAdd_eq (a b : Rat) : rAdd a b = a + b := by
  unfold rAdd
  have ha : ((a.den : Rat)) ≠ 0 := Nat.cast_ne_zero.mpr a.den_nz
  have hb : ((b.den : Rat)) ≠ 0 := Nat.cast_ne_zero.mpr b.den_nz
  rw [Rat.mkRat_eq_div]
  push_cast
  rw [eq_comm]
  conv_lhs => rw [← Rat.num_div_den a, ← Rat.num_div_den b]
  rw [div_add_div _ _ ha hb]
  congr 1
  ring

/-- `rSub` is rational subtraction. -/
theorem rSub_eq (a b : Rat) : rSub a b = a - b := by
  unfold rSub
  have ha : ((a.den : Rat)) ≠ 0 := Nat.cast_ne_zero.mpr a.den_nz
  have hb : ((b.den : Rat)) ≠ 0 := Nat.cast_ne_zero.mpr b.den_nz
  rw [Rat.mkRat_eq_div]
  push_cast
  rw [eq_comm]
  conv_lhs => rw [← Rat.num_div_den a, ← Rat.num_div_den b]
  rw [div_sub_div _ _ ha hb]
  congr 1
  ring

/-- `rMul` is rational multiplication. -/
theorem rMul_eq (a b : Rat) : rMul a b = a * b := by
  unfold rMul
  rw [Rat.mkRat_eq_div]
  push_cast
  rw [eq_comm]
  conv_lhs => rw [← Rat.num_div_den a, ← Rat.num_div_den b]
  rw [div_mul_div_comm]

/-- `rDiv` is rational division. -/
theorem rDiv_eq (a b : Rat) : rDiv a b = a / b := by
  unfold rDiv
  rw [Rat.divInt_eq_div]
  push_cast
  rcases eq_or_ne b 0 with hb0 | hb0
  · subst hb0; simp
  · have ha : ((a.den : Rat)) ≠ 0 := Nat.cast_ne_zero.mpr a.den_nz
    have hbd : ((b.den : Rat)) ≠ 0 := Nat.cast_ne_zero.mpr b.den_nz
    have hbn : ((b.num : Rat)) ≠ 0 := by
      exact_mod_cast Rat.num_ne_zero.mpr hb0
    have hna : (a.num : Rat) = a * a.den := (div_eq_iff ha).mp (Rat.num_div_den a)
    have hnb : (b.num : Rat) = b * b.den := (div_eq_iff hbd).mp (Rat.num_div_den b)
    rw [div_eq_div_iff (mul_ne_zero ha hbn) hb0, hna, hnb]
    ring

/-! ## C3 — month-key derivation -/

/-- C3: the previous-month key is NOT always the calendar month preceding
`now`'s month: `setMonth` day overflow makes `addMonths(2025-03-31, -1)`
normalise "February 31" to March 3, so the previous-month key equals the
current-month key; the December-to-January rollover case itself works
(2025-01-15 yields "2024-12"). -/
theorem prevMonthKey_day_overflow :
    prevMonthKeyOf ⟨2025, 3, 31⟩ = "2025-03" ∧
    currentMonthKeyOf ⟨2025, 3, 31⟩ = "2025-03" ∧
    prevMonthKeyOf ⟨2025, 1, 15⟩ = "2024-12" := by
  decide

/-! ## C5 — the linear forecast -/

/-- C5: `forecastMonthEnd` is exactly the guarded linear projection
`round(netMonth + (netMonth / dayOfMonth) * (daysInMonth - dayOfMonth))`,
skipped when `dayOfMonth = 0` (no division by zero); on netMonth 300,
dayOfMonth 10, daysInMonth 30 it projects 900. -/
theorem forecastMonthEnd_spec :
    (∀ s : Stats, forecastMonthEnd s =
      if s.dayOfMonth = 0 then none
      else some (jsRound (s.netMonth + s.netMonth / (s.dayOfMonth : Rat) *
        ((s.daysInMonth : Rat) - (s.dayOfMonth : Rat))))) ∧
    statsC5.netMonth = 300 ∧ statsC5.dayOfMonth = 10 ∧ statsC5.daysInMonth = 30 ∧
    forecastMonthEnd statsC5 = some 900 := by
  refine ⟨fun s => ?_, rfl, rfl, rfl, by decide⟩
  simp only [forecastMonthEnd, rAdd_eq, rMul_eq, rSub_eq, rDiv_eq]

/-! ## C7 — the 12-item cap of the insight sequence -/

/-- C7: `buildInsights` never returns more than 12 items; at `statsAll13`
all 13 rules fire (13 raw items) and the final slice enforces the cap. -/
theorem buildInsights_cap :
    (∀ s : Stats, (buildInsights s).length ≤ 12) ∧
    (buildInsightsRaw statsAll13).length = 13 ∧
    (buildInsights statsAll13).length = 12 := by
  refine ⟨fun s => ?_, by decide, by decide⟩
  simp [buildInsights, List.length_take]

/-! ## C9 — silent truncation of oversized backups -/

/-- C9: a valid backup payload with more than `MAX_ROWS` records yields
exactly the first `MAX_ROWS` records verbatim (no per-record validation)
and an empty error list: the truncation is silent. -/
theorem importBackup_silent_truncation (fileSize : Nat) (p : BackupPayload)
    (v : Int) (txs : List Transaction)
    (hsize : fileSize ≤ MAX_FILE_BYTES) (hv : p.version = some v)
    (ht : p.transactions = some txs) (hlen : MAX_ROWS < txs.length) :
    importBackup fileSize (some p) = ⟨txs.take MAX_ROWS, []⟩ ∧
    (importBackup fileSize (some p)).data.length = MAX_ROWS ∧
    (importBackup fileSize (some p)).errors = [] := by
  have hnot : ¬ MAX_FILE_BYTES < fileSize := not_lt.mpr hsize
  have he : importBackup fileSize (some p) = ⟨txs.take MAX_ROWS, []⟩ := by
    simp only [importBackup, if_neg hnot, hv, ht, Option.isNone_some, Bool.false_eq_true,
      if_false]
  refine ⟨he, ?_, ?_⟩
  · rw [he]
    simp [List.length_take]
    omega
  · rw [he]

/-- Witness for C9 at a concrete 2001-record payload. -/
theorem importBackup_silent_truncation_witness :
    importBackup 100 (some backupBig) = ⟨(List.replicate 2001 backupTx).take MAX_ROWS, []⟩ ∧
    (importBackup 100 (some backupBig)).data.length = MAX_ROWS ∧
    (importBackup 100 (some backupBig)).errors = [] := by
  exact importBackup_silent_truncation 100 backupBig 1 (List.replicate 2001 backupTx)
    (by decide) rfl rfl (by rw [List.length_replicate]; decide)

/-! ## C6 — import `type` validation -/

/-- C6: in both import pipelines a record whose trimmed, lower-cased `type`
is neither `income` nor `expense` is rejected (once the checks preceding
the type check pass) with a line-numbered message echoing the offending
value; a record whose type matches up to case is accepted; and a batch
continues past a rejected record. -/
theorem importType_validation :
    (∀ (genId : String) (idx : Nat) (r : RawRow),
      trimStr r.date ≠ "" → trimStr r.category ≠ "" → lowerStr (trimStr r.type) ≠ "" →
      r.amount.isNone = false →
      lowerStr (trimStr r.type) ≠ "income" → lowerStr (trimStr r.type) ≠ "expense" →
      csvProcessRow genId idx r = Except.error ("Linha " ++ toString (idx + 2) ++
        ": tipo deve ser income ou expense (valor recebido: " ++ lowerStr (trimStr r.type) ++ ").")) ∧
    (∀ (genId : String) (idx : Nat) (r : RawRow),
      trimStr r.date ≠ "" → trimStr r.category ≠ "" → lowerStr (trimStr r.type) ≠ "" →
      r.amount.isNone = false → isoDateFormat (trimStr r.date) = true →
      lowerStr (trimStr r.type) ≠ "income" → lowerStr (trimStr r.type) ≠ "expense" →
      jsonProcessRow genId idx r = Except.error ("Item " ++ toString (idx + 1) ++
        ": tipo deve ser income ou expense (valor recebido: " ++ lowerStr (trimStr r.type) ++ ").")) ∧
    (∀ (genId : String) (idx : Nat) (r : RawRow) (q : Rat),
      lowerStr (trimStr r.type) = "income" → trimStr r.date ≠ "" → trimStr r.category ≠ "" →
      r.amount = some q → isoDateFormat (trimStr r.date) = true →
      csvProcessRow genId idx r = Except.ok
        { id := if trimStr r.id = "" then genId else trimStr r.id
          date := trimStr r.date
          type := TxType.income
          category := trimStr r.category
          amount := q
          note := some (trimStr r.note) }) ∧
    importCsvRows genW [giftRow, incomeRow] =
      { data := [⟨"id9", "2024-01-05", TxType.income, "salary", 25, some "pay"⟩]
        errors := ["Linha 2: tipo deve ser income ou expense (valor recebido: gift)."] } := by
  refine ⟨?_, ?_, ?_, by decide⟩
  · intro genId idx r hd hc ht ha hti hte
    have h1 : ¬(trimStr r.date = "" ∨ trimStr r.category = "" ∨
        lowerStr (trimStr r.type) = "" ∨ r.amount.isNone) := by
      simp [hd, hc, ht, ha]
    simp only [csvProcessRow]
    rw [if_neg h1, if_pos ⟨hti, hte⟩]
  · intro genId idx r hd hc ht ha hiso hti hte
    have h1 : ¬(trimStr r.date = "" ∨ trimStr r.category = "" ∨
        lowerStr (trimStr r.type) = "" ∨ r.amount.isNone) := by
      simp [hd, hc, ht, ha]
    have h2 : ¬((!isoDateFormat (trimStr r.date)) = true) := by simp [hiso]
    simp only [jsonProcessRow]
    rw [if_neg h1, if_neg h2, if_pos ⟨hti, hte⟩]
  · intro genId idx r q hty hd hc ha hiso
    have h1 : ¬(trimStr r.date = "" ∨ trimStr r.category = "" ∨
        lowerStr (trimStr r.type) = "" ∨ r.amount.isNone) := by
      simp [hd, hc, hty, ha]
    have h2 : ¬(lowerStr (trimStr r.type) ≠ "income" ∧ lowerStr (trimStr r.type) ≠ "expense") := by
      simp [hty]
    have h3 : ¬((!isoDateFormat (trimStr r.date)) = true) := by simp [hiso]
    simp only [csvProcessRow]
    rw [if_neg h1, if_neg h2, if_neg h3, if_pos hty, ha]
    simp

/-- Witness for C6: the `gift` row is rejected with the echoed message in
both pipelines, and the `Income` row is accepted. -/
theorem importType_validation_witness :
    csvProcessRow "g" 0 giftRow = Except.error
      "Linha 2: tipo deve ser income ou expense (valor recebido: gift)." ∧
    jsonProcessRow "g" 0 giftRow = Except.error
      "Item 1: tipo deve ser income ou expense (valor recebido: gift)." ∧
    csvProcessRow "g" 3 incomeRow = Except.ok
      ⟨"id9", "2024-01-05", TxType.income, "salary", 25, some "pay"⟩ := by
  refine ⟨?_, ?_, ?_⟩
  · exact importType_validation.1 "g" 0 giftRow (by decide) (by decide) (by decide)
      (by decide) (by decide) (by decide)
  · exact importType_validation.2.1 "g" 0 giftRow (by decide) (by decide) (by decide)
      (by decide) (by decide) (by decide) (by decide)
  · exact importType_validation.2.2.1 "g" 3 incomeRow 25 (by decide) (by decide)
      (by decide) rfl (by decide)

/-! ## Reconciliation merge: invariants of the fold -/

/-- The ids of a transaction list, in order. -/
def idsOf (l : List Transaction) : List String := l.map Transaction.id

/-- The content keys of a transaction list, in order. -/
def keysOf (l : List Transaction) : List String := l.map makeKey

/-- Setting a fresh key on the id-index appends the pair. -/
theorem mapSet_fresh (m : List (String × Transaction)) (k : String) (v : Transaction)
    (h : k ∉ m.map Prod.fst) : mapSet m k v = m ++ [(k, v)] := by
  induction m with
  | nil => rfl
  | cons p rest ih =>
    obtain ⟨k0, v0⟩ := p
    simp only [List.map_cons, List.mem_cons] at h
    push_neg at h
    simp only [mapSet]
    rw [if_neg fun he => h.1 he.symm]
    rw [ih h.2]
    simp

/-- Membership in the key-index after one `set`. -/
theorem keySet_mem (ks : List String) (k k' : String) :
    k ∈ keySet ks k' ↔ k ∈ ks ∨ k = k' := by
  unfold keySet
  split
  · rename_i h
    constructor
    · exact Or.inl
    · rintro (hk | rfl)
      exacts [hk, h]
  · simp [List.mem_append]

/-- Seeding the id-index from a list with pairwise-distinct ids appends
each pair in order. -/
theorem foldl_mapSet_fresh (l : List Transaction) :
    ∀ acc : List (String × Transaction),
      (idsOf l).Nodup → (∀ t ∈ l, t.id ∉ acc.map Prod.fst) →
      l.foldl (fun m t => mapSet m t.id t) acc = acc ++ l.map (fun t => (t.id, t)) := by
  induction l with
  | nil => intro acc _ _; simp
  | cons t ts ih =>
    intro acc hnd hfresh
    simp only [idsOf, List.map_cons, List.nodup_cons] at hnd
    simp only [List.foldl_cons]
    rw [mapSet_fresh acc t.id t (hfresh t (List.mem_cons_self t ts))]
    rw [ih (acc ++ [(t.id, t)]) hnd.2 ?_]
    · simp
    · intro u hu
      simp only [List.map_append, List.mem_append, List.map_cons, List.map_nil,
        List.mem_singleton, not_or]
      refine ⟨hfresh u (List.mem_cons_of_mem t hu), fun he => ?_⟩
      exact hnd.1 (he ▸ List.mem_map_of_mem Transaction.id hu)

/-- Membership in the key-index seeded from a transaction list. -/
theorem foldl_keySet_mem (l : List Transaction) :
    ∀ (acc : List String) (k : String),
      k ∈ l.foldl (fun ks t => keySet ks (makeKey t)) acc ↔ k ∈ acc ∨ k ∈ keysOf l := by
  induction l with
  | nil => simp [keysOf]
  | cons t ts ih =>
    intro acc k
    simp only [List.foldl_cons, keysOf, List.map_cons, List.mem_cons]
    rw [ih]
    rw [keySet_mem]
    simp only [keysOf]
    tauto

/-- Invariant of the merge fold: after any batch, the id-index is exactly
the pairing of `existing ++ acc` for the sub-list `acc` of accepted
candidates, the key-index holds exactly the content keys of those records,
the counters sum to the batch size, ids stay pairwise distinct, and every
batch candidate's id or content key occurs among the processed records. -/
theorem mergeState_spec (existing : List Transaction)
    (h : (idsOf existing).Nodup) (incoming : List Transaction) :
    ∃ acc : List Transaction,
      (mergeState existing incoming).byId = (existing ++ acc).map (fun t => (t.id, t)) ∧
      (∀ k, k ∈ (mergeState existing incoming).byKey ↔ k ∈ keysOf (existing ++ acc)) ∧
      (mergeState existing incoming).added + (mergeState existing incoming).skipped =
        incoming.length ∧
      (idsOf (existing ++ acc)).Nodup ∧
      (∀ t ∈ incoming,
        t.id ∈ idsOf (existing ++ acc) ∨ makeKey t ∈ keysOf (existing ++ acc)) := by
  induction incoming using List.reverseRecOn with
  | nil =>
    refine ⟨[], ?_, ?_, rfl, by simpa using h, by simp⟩
    · show (mergeInit existing).byId = _
      simp only [mergeInit]
      rw [foldl_mapSet_fresh existing [] h (by simp)]
      simp
    · intro k
      show k ∈ (mergeInit existing).byKey ↔ _
      simp only [mergeInit]
      rw [foldl_keySet_mem existing [] k]
      simp
  | append_singleton xs x ih =>
    obtain ⟨acc, hById, hByKey, hCount, hNodup, hMem⟩ := ih
    have hstate : mergeState existing (xs ++ [x]) = mergeStep (mergeState existing xs) x := by
      simp [mergeState, List.foldl_append]
    have hFst : (mergeState existing xs).byId.map Prod.fst = idsOf (existing ++ acc) := by
      rw [hById]
      simp [idsOf, List.map_map, Function.comp_def]
    by_cases hid : x.id ∈ idsOf (existing ++ acc)
    · have hid' : x.id ∈ (mergeState existing xs).byId.map Prod.fst := by
        rw [hFst]
        exact hid
      have hstep : mergeStep (mergeState existing xs) x =
          { mergeState existing xs with skipped := (mergeState existing xs).skipped + 1 } := by
        simp only [mergeStep]
        rw [if_pos hid']
      refine ⟨acc, ?_, ?_, ?_, hNodup, ?_⟩
      · rw [hstate, hstep]
        exact hById
      · intro k
        rw [hstate, hstep]
        exact hByKey k
      · rw [hstate, hstep]
        simp only [List.length_append, List.length_singleton]
        omega
      · intro t ht
        rcases List.mem_append.mp ht with hxs | hx
        · exact hMem t hxs
        · rw [List.mem_singleton.mp hx]
          exact Or.inl hid
    · have hid' : x.id ∉ (mergeState existing xs).byId.map Prod.fst := by
        rw [hFst]
        exact hid
      by_cases hkey : makeKey x ∈ keysOf (existing ++ acc)
      · have hkey' : makeKey x ∈ (mergeState existing xs).byKey := (hByKey _).mpr hkey
        have hstep : mergeStep (mergeState existing xs) x =
            { mergeState existing xs with skipped := (mergeState existing xs).skipped + 1 } := by
          simp only [mergeStep]
          rw [if_neg hid', if_pos hkey']
        refine ⟨acc, ?_, ?_, ?_, hNodup, ?_⟩
        · rw [hstate, hstep]
          exact hById
        · intro k
          rw [hstate, hstep]
          exact hByKey k
        · rw [hstate, hstep]
          simp only [List.length_append, List.length_singleton]
          omega
        · intro t ht
          rcases List.mem_append.mp ht with hxs | hx
          · exact hMem t hxs
          · rw [List.mem_singleton.mp hx]
            exact Or.inr hkey
      · have hkey' : makeKey x ∉ (mergeState existing xs).byKey :=
          fun hc => hkey ((hByKey _).mp hc)
        have hstep : mergeStep (mergeState existing xs) x =
            { byId := mapSet (mergeState existing xs).byId x.id x
              byKey := keySet (mergeState existing xs).byKey (makeKey x)
              added := (mergeState existing xs).added + 1
              skipped := (mergeState existing xs).skipped } := by
          simp only [mergeStep]
          rw [if_neg hid', if_neg hkey']
        refine ⟨acc ++ [x], ?_, ?_, ?_, ?_, ?_⟩
        · rw [hstate, hstep]
          show mapSet (mergeState existing xs).byId x.id x = _
          rw [mapSet_fresh _ _ _ hid', hById]
          simp [List.map_append]
        · intro k
          rw [hstate, hstep]
          show k ∈ keySet (mergeState existing xs).byKey (makeKey x) ↔ _
          rw [keySet_mem, hByKey k]
          simp only [keysOf, List.map_append, List.mem_append, List.map_cons, List.map_nil,
            List.mem_singleton]
          tauto
        · rw [hstate, hstep]
          simp only [List.length_append, List.length_singleton]
          omega
        · simp only [idsOf, List.map_append, List.map_cons, List.map_nil] at hNodup ⊢
          rw [← List.append_assoc]
          rw [List.nodup_append]
          refine ⟨by simpa [List.map_append] using hNodup, List.nodup_singleton _, ?_⟩
          intro a ha hb
          rw [List.mem_singleton.mp hb] at ha
          apply hid
          simpa [idsOf, List.map_append] using ha
        · intro t ht
          have hsub : ∀ u : Transaction,
              u.id ∈ idsOf (existing ++ acc) ∨ makeKey u ∈ keysOf (existing ++ acc) →
              u.id ∈ idsOf (existing ++ (acc ++ [x])) ∨
                makeKey u ∈ keysOf (existing ++ (acc ++ [x])) := by
            intro u hu
            rcases hu with hu | hu
            · left
              simp only [idsOf, List.map_append, List.mem_append] at hu ⊢
              tauto
            · right
              simp only [keysOf, List.map_append, List.mem_append] at hu ⊢
              tauto
          rcases List.mem_append.mp ht with hxs | hx
          · exact hsub t (hMem t hxs)
          · rw [List.mem_singleton.mp hx]
            left
            simp [idsOf, List.map_append]

/-- A batch whose every candidate already collides (by id or content key)
with the collection is skipped wholesale, one count per candidate. -/
theorem foldl_mergeStep_all_skip (B : List Transaction) :
    ∀ st : MergeSt,
      (∀ t ∈ B, t.id ∈ st.byId.map Prod.fst ∨ makeKey t ∈ st.byKey) →
      B.foldl mergeStep st = { st with skipped := st.skipped + B.length } := by
  induction B with
  | nil => intro st _; rfl
  | cons t ts ih =>
    intro st hall
    simp only [List.foldl_cons, List.length_cons]
    have hstep : mergeStep st t = { st with skipped := st.skipped + 1 } := by
      rcases hall t (List.mem_cons_self t ts) with hid | hkey
      · simp only [mergeStep]
        rw [if_pos hid]
      · by_cases hid : t.id ∈ st.byId.map Prod.fst
        · simp only [mergeStep]
          rw [if_pos hid]
        · simp only [mergeStep]
          rw [if_neg hid, if_pos hkey]
    rw [hstep]
    rw [ih { st with skipped := st.skipped + 1 }
      (fun u hu => hall u (List.mem_cons_of_mem t hu))]
    have harith : st.skipped + 1 + ts.length = st.skipped + (ts.length + 1) := by omega
    rw [harith]

/-- `mergeTransactions` on a batch that entirely collides with the
existing collection returns the collection unchanged, adds nothing, and
skips every candidate. -/
theorem merge_all_skip (E B : List Transaction)
    (hN : (idsOf E).Nodup)
    (hB : ∀ t ∈ B, t.id ∈ idsOf E ∨ makeKey t ∈ keysOf E) :
    mergeTransactions E B = ⟨E, 0, B.length⟩ := by
  have hInitId : (mergeInit E).byId = E.map (fun t => (t.id, t)) := by
    simp only [mergeInit]
    rw [foldl_mapSet_fresh E [] hN (by simp)]
    simp
  have hInitKey : ∀ k, k ∈ (mergeInit E).byKey ↔ k ∈ keysOf E := by
    intro k
    simp only [mergeInit]
    rw [foldl_keySet_mem E [] k]
    simp
  have hfold := foldl_mergeStep_all_skip B (mergeInit E) fun t ht => by
    rcases hB t ht with hid | hkey
    · left
      rw [hInitId]
      simpa [idsOf, List.map_map, Function.comp_def] using hid
    · right
      exact (hInitKey _).mpr hkey
  show (let st := mergeState E B; (⟨st.byId.map Prod.snd, st.added, st.skipped⟩ : MergeResult)) = _
  unfold mergeState
  rw [hfold]
  show (⟨(mergeInit E).byId.map Prod.snd, (mergeInit E).added,
    (mergeInit E).skipped + B.length⟩ : MergeResult) = ⟨E, 0, B.length⟩
  rw [hInitId]
  simp [mergeInit, List.map_map, Function.comp_def]

/-- Core of the idempotence property: re-merging the same batch into the
merged collection adds nothing and skips the whole batch. -/
theorem mergeTransactions_idempotent_aux (E B : List Transaction)
    (h : (idsOf E).Nodup) :
    mergeTransactions (mergeTransactions E B).merged B =
      ⟨(mergeTransactions E B).merged, 0, B.length⟩ := by
  obtain ⟨acc, hById, hByKey, hCount, hNodup, hMem⟩ := mergeState_spec E h B
  have hMerged : (mergeTransactions E B).merged = E ++ acc := by
    simp [mergeTransactions, hById, List.map_map, Function.comp_def]
  rw [hMerged]
  exact merge_all_skip (E ++ acc) B hNodup hMem

/-! ## C1 — the skip rule of the reconciliation merge -/

/-- C1 counterexample: on a batch with two candidates sharing an id but
with different content keys, the claimed rule (id checked only against the
EXISTING collection) accepts both, while `mergeTransactions` accepts one
and skips the other: candidate ids are also checked against candidates
already accepted from the same batch. -/
theorem mergeTransactions_id_check_counterexample :
    (mergeTransactionsClaimed [] [t1C1, t2C1]).added = 2 ∧
    (mergeTransactions [] [t1C1, t2C1]).added = 1 := by
  decide

/-- C1 (amended): for an existing collection with pairwise-distinct ids, a
candidate appended to the batch is skipped exactly when its id or its
content key already occurs among the processed records — the existing
records plus the candidates already accepted from the same batch (which
are precisely the merged records so far); otherwise it is accepted,
appended to the merged collection (hence inserted in both indexes) and
counted as added; and added + skipped always equals the batch size. -/
theorem mergeTransactions_skip_characterization
    (existing incoming : List Transaction) (t : Transaction)
    (h : (idsOf existing).Nodup) :
    (mergeTransactions existing incoming).added +
      (mergeTransactions existing incoming).skipped = incoming.length ∧
    ((t.id ∈ idsOf (mergeTransactions existing incoming).merged ∨
      makeKey t ∈ keysOf (mergeTransactions existing incoming).merged) →
      mergeTransactions existing (incoming ++ [t]) =
        ⟨(mergeTransactions existing incoming).merged,
         (mergeTransactions existing incoming).added,
         (mergeTransactions existing incoming).skipped + 1⟩) ∧
    ((t.id ∉ idsOf (mergeTransactions existing incoming).merged ∧
      makeKey t ∉ keysOf (mergeTransactions existing incoming).merged) →
      mergeTransactions existing (incoming ++ [t]) =
        ⟨(mergeTransactions existing incoming).merged ++ [t],
         (mergeTransactions existing incoming).added + 1,
         (mergeTransactions existing incoming).skipped⟩) := by
  obtain ⟨acc, hById, hByKey, hCount, hNodup, hMem⟩ := mergeState_spec existing h incoming
  have hMerged : (mergeTransactions existing incoming).merged = existing ++ acc := by
    simp [mergeTransactions, hById, List.map_map, Function.comp_def]
  have hFst : (mergeState existing incoming).byId.map Prod.fst = idsOf (existing ++ acc) := by
    rw [hById]
    simp [idsOf, List.map_map, Function.comp_def]
  have hstate : mergeState existing (incoming ++ [t]) =
      mergeStep (mergeState existing incoming) t := by
    simp [mergeState, List.foldl_append]
  refine ⟨hCount, ?_, ?_⟩
  · intro hskip
    have hskip' : t.id ∈ (mergeState existing incoming).byId.map Prod.fst ∨
        makeKey t ∈ (mergeState existing incoming).byKey := by
      rw [hMerged] at hskip
      rcases hskip with hid | hkey
      · left
        rw [hFst]
        exact hid
      · right
        exact (hByKey _).mpr hkey
    have hstep : mergeStep (mergeState existing incoming) t =
        { mergeState existing incoming with
          skipped := (mergeState existing incoming).skipped + 1 } := by
      rcases hskip' with hid | hkey
      · simp only [mergeStep]
        rw [if_pos hid]
      · by_cases hid : t.id ∈ (mergeState existing incoming).byId.map Prod.fst
        · simp only [mergeStep]
          rw [if_pos hid]
        · simp only [mergeStep]
          rw [if_neg hid, if_pos hkey]
    show (⟨(mergeState existing (incoming ++ [t])).byId.map Prod.snd,
      (mergeState existing (incoming ++ [t])).added,
      (mergeState existing (incoming ++ [t])).skipped⟩ : MergeResult) = _
    rw [hstate, hstep]
    rfl
  · intro haccept
    rw [hMerged] at haccept
    have hid' : t.id ∉ (mergeState existing incoming).byId.map Prod.fst := by
      rw [hFst]
      exact haccept.1
    have hkey' : makeKey t ∉ (mergeState existing incoming).byKey :=
      fun hc => haccept.2 ((hByKey _).mp hc)
    have hstep : mergeStep (mergeState existing incoming) t =
        { byId := mapSet (mergeState existing incoming).byId t.id t
          byKey := keySet (mergeState existing incoming).byKey (makeKey t)
          added := (mergeState existing incoming).added + 1
          skipped := (mergeState existing incoming).skipped } := by
      simp only [mergeStep]
      rw [if_neg hid', if_neg hkey']
    show (⟨(mergeState existing (incoming ++ [t])).byId.map Prod.snd,
      (mergeState existing (incoming ++ [t])).added,
      (mergeState existing (incoming ++ [t])).skipped⟩ : MergeResult) = _
    rw [hstate, hstep]
    show (⟨(mapSet (mergeState existing incoming).byId t.id t).map Prod.snd, _, _⟩ :
      MergeResult) = _
    rw [mapSet_fresh _ _ _ hid']
    simp only [List.map_append, List.map_cons, List.map_nil]
    rfl

/-- Witness for C1 (amended) at a concrete fresh candidate. -/
theorem mergeTransactions_skip_characterization_witness :
    mergeTransactions [eW] ([] ++ [tW]) =
      ⟨(mergeTransactions [eW] []).merged ++ [tW],
       (mergeTransactions [eW] []).added + 1,
       (mergeTransactions [eW] []).skipped⟩ := by
  exact (mergeTransactions_skip_characterization [eW] [] tW (by decide)).2.2
    ⟨by decide, by decide⟩

/-! ## C4 — idempotence of the reconciliation merge -/

/-- C4 counterexample: when a candidate was skipped by content key in the
first merge, re-merging the batch still adds 0 and leaves the collection
unchanged, but that candidate's id is NOT present in the merged collection
— it is skipped by content key, not by id, contradicting the claim's
"each candidate's id is already present". -/
theorem merge_idempotent_skip_by_key_counterexample :
    (mergeTransactions (mergeTransactions [eC4] [tC4]).merged [tC4]).skipped = 1 ∧
    (mergeTransactions (mergeTransactions [eC4] [tC4]).merged [tC4]).added = 0 ∧
    (mergeTransactions (mergeTransactions [eC4] [tC4]).merged [tC4]).merged =
      (mergeTransactions [eC4] [tC4]).merged ∧
    tC4.id ∉ idsOf (mergeTransactions [eC4] [tC4]).merged := by
  decide

/-- C4 (amended): merging the same batch again on top of the merged
collection adds 0 records, skips every candidate (each candidate's id OR
content key is already present), and leaves the collection unchanged. -/
theorem mergeTransactions_idempotent (E B : List Transaction)
    (h : (idsOf E).Nodup) :
    mergeTransactions (mergeTransactions E B).merged B =
      ⟨(mergeTransactions E B).merged, 0, B.length⟩ :=
  mergeTransactions_idempotent_aux E B h

/-- Witness for C4 (amended) at a concrete collection and batch. -/
theorem mergeTransactions_idempotent_witness :
    mergeTransactions (mergeTransactions [eW] [tW]).merged [tW] =
      ⟨(mergeTransactions [eW] [tW]).merged, 0, [tW].length⟩ :=
  mergeTransactions_idempotent [eW] [tW] (by decide)

/-! ## The stats aggregator: per-section update lemmas -/

/-- The current-month section leaves the weekday table unchanged. -/
theorem stepMonth_spendByWeekday (ck : String) (t : Transaction) (a : Accum) :
    (stepMonth ck t a).spendByWeekday = a.spendByWeekday := by
  unfold stepMonth
  repeat' split
  all_goals rfl

/-- The current-month section leaves the 30-day expense sum unchanged. -/
theorem stepMonth_sumExpense30 (ck : String) (t : Transaction) (a : Accum) :
    (stepMonth ck t a).sumExpense30 = a.sumExpense30 := by
  unfold stepMonth
  repeat' split
  all_goals rfl

/-- The current-month section leaves the 30-day expense count unchanged. -/
theorem stepMonth_countExpense30 (ck : String) (t : Transaction) (a : Accum) :
    (stepMonth ck t a).countExpense30 = a.countExpense30 := by
  unfold stepMonth
  repeat' split
  all_goals rfl

/-- The current-month section leaves the biggest expense unchanged. -/
theorem stepMonth_biggestExpense (ck : String) (t : Transaction) (a : Accum) :
    (stepMonth ck t a).biggestExpense = a.biggestExpense := by
  unfold stepMonth
  repeat' split
  all_goals rfl

/-- The current-month section leaves the week expense unchanged. -/
theorem stepMonth_expenseWeek (ck : String) (t : Transaction) (a : Accum) :
    (stepMonth ck t a).expenseWeek = a.expenseWeek := by
  unfold stepMonth
  repeat' split
  all_goals rfl

/-- How the current-month section updates the month expense. -/
theorem stepMonth_expenseMonth (ck : String) (t : Transaction) (a : Accum) :
    (stepMonth ck t a).expenseMonth =
      if sliceStr t.date 7 = ck then
        (if t.type = TxType.income then a.expenseMonth else rAdd a.expenseMonth t.amount)
      else a.expenseMonth := by
  unfold stepMonth
  repeat' split
  all_goals rfl

/-- How the current-month section updates the month category totals. -/
theorem stepMonth_byCatMonth (ck : String) (t : Transaction) (a : Accum) :
    (stepMonth ck t a).byCatMonth =
      if sliceStr t.date 7 = ck then
        objSet a.byCatMonth t.category
          (rAdd (objGet a.byCatMonth t.category)
            (if t.type = TxType.expense then t.amount else 0))
      else a.byCatMonth := by
  unfold stepMonth
  repeat' split
  all_goals rfl

/-- The previous-month section leaves the weekday table unchanged. -/
theorem stepPrev_spendByWeekday (pk : String) (t : Transaction) (a : Accum) :
    (stepPrev pk t a).spendByWeekday = a.spendByWeekday := by
  unfold stepPrev
  repeat' split
  all_goals rfl

/-- The previous-month section leaves the 30-day expense sum unchanged. -/
theorem stepPrev_sumExpense30 (pk : String) (t : Transaction) (a : Accum) :
    (stepPrev pk t a).sumExpense30 = a.sumExpense30 := by
  unfold stepPrev
  repeat' split
  all_goals rfl

/-- The previous-month section leaves the 30-day expense count unchanged. -/
theorem stepPrev_countExpense30 (pk : String) (t : Transaction) (a : Accum) :
    (stepPrev pk t a).countExpense30 = a.countExpense30 := by
  unfold stepPrev
  repeat' split
  all_goals rfl

/-- The previous-month section leaves the biggest expense unchanged. -/
theorem stepPrev_biggestExpense (pk : String) (t : Transaction) (a : Accum) :
    (stepPrev pk t a).biggestExpense = a.biggestExpense := by
  unfold stepPrev
  repeat' split
  all_goals rfl

/-- The previous-month section leaves the week expense unchanged. -/
theorem stepPrev_expenseWeek (pk : String) (t : Transaction) (a : Accum) :
    (stepPrev pk t a).expenseWeek = a.expenseWeek := by
  unfold stepPrev
  repeat' split
  all_goals rfl

/-- The previous-month section leaves the month expense unchanged. -/
theorem stepPrev_expenseMonth (pk : String) (t : Transaction) (a : Accum) :
    (stepPrev pk t a).expenseMonth = a.expenseMonth := by
  unfold stepPrev
  repeat' split
  all_goals rfl

/-- The previous-month section leaves the month category totals unchanged. -/
theorem stepPrev_byCatMonth (pk : String) (t : Transaction) (a : Accum) :
    (stepPrev pk t a).byCatMonth = a.byCatMonth := by
  unfold stepPrev
  repeat' split
  all_goals rfl

/-- How the 30-day section updates the weekday table. -/
theorem step30_spendByWeekday (s30 : Int) (t : Transaction) (a : Accum) :
    (step30 s30 t a).spendByWeekday =
      if inWindow s30 t then
        numSet a.spendByWeekday (weekdayOf t.date)
          (rAdd (numGet a.spendByWeekday (weekdayOf t.date))
            (if t.type = TxType.expense then t.amount else 0))
      else a.spendByWeekday := by
  unfold step30
  repeat' split
  all_goals rfl

/-- How the 30-day section updates the 30-day expense sum. -/
theorem step30_sumExpense30 (s30 : Int) (t : Transaction) (a : Accum) :
    (step30 s30 t a).sumExpense30 =
      if inWindow s30 t then
        (if t.type = TxType.expense then rAdd a.sumExpense30 t.amount else a.sumExpense30)
      else a.sumExpense30 := by
  unfold step30
  repeat' split
  all_goals rfl

/-- How the 30-day section updates the 30-day expense count. -/
theorem step30_countExpense30 (s30 : Int) (t : Transaction) (a : Accum) :
    (step30 s30 t a).countExpense30 =
      if inWindow s30 t then
        (if t.type = TxType.expense then a.countExpense30 + 1 else a.countExpense30)
      else a.countExpense30 := by
  unfold step30
  repeat' split
  all_goals rfl

/-- The 30-day section leaves the week expense unchanged. -/
theorem step30_expenseWeek (s30 : Int) (t : Transaction) (a : Accum) :
    (step30 s30 t a).expenseWeek = a.expenseWeek := by
  unfold step30
  repeat' split
  all_goals rfl

/-- The 30-day section leaves the month expense unchanged. -/
theorem step30_expenseMonth (s30 : Int) (t : Transaction) (a : Accum) :
    (step30 s30 t a).expenseMonth = a.expenseMonth := by
  unfold step30
  repeat' split
  all_goals rfl

/-- The 30-day section leaves the month category totals unchanged. -/
theorem step30_byCatMonth (s30 : Int) (t : Transaction) (a : Accum) :
    (step30 s30 t a).byCatMonth = a.byCatMonth := by
  unfold step30
  repeat' split
  all_goals rfl

/-- An expense inside the 30-day window makes the biggest expense defined. -/
theorem step30_biggestExpense_isSome (s30 : Int) (t : Transaction) (a : Accum)
    (hw : inWindow s30 t = true) (he : t.type = TxType.expense) :
    (step30 s30 t a).biggestExpense.isSome = true := by
  unfold step30
  repeat' split
  all_goals simp_all
  cases a.biggestExpense
  all_goals repeat' split
  all_goals rfl

/-- The 7-day section leaves the weekday table unchanged. -/
theorem step7_spendByWeekday (s7 : Int) (t : Transaction) (a : Accum) :
    (step7 s7 t a).spendByWeekday = a.spendByWeekday := by
  unfold step7
  repeat' split
  all_goals rfl

/-- The 7-day section leaves the 30-day expense sum unchanged. -/
theorem step7_sumExpense30 (s7 : Int) (t : Transaction) (a : Accum) :
    (step7 s7 t a).sumExpense30 = a.sumExpense30 := by
  unfold step7
  repeat' split
  all_goals rfl

/-- The 7-day section leaves the 30-day expense count unchanged. -/
theorem step7_countExpense30 (s7 : Int) (t : Transaction) (a : Accum) :
    (step7 s7 t a).countExpense30 = a.countExpense30 := by
  unfold step7
  repeat' split
  all_goals rfl

/-- The 7-day section leaves the biggest expense unchanged. -/
theorem step7_biggestExpense (s7 : Int) (t : Transaction) (a : Accum) :
    (step7 s7 t a).biggestExpense = a.biggestExpense := by
  unfold step7
  repeat' split
  all_goals rfl

/-- The 7-day section leaves the month expense unchanged. -/
theorem step7_expenseMonth (s7 : Int) (t : Transaction) (a : Accum) :
    (step7 s7 t a).expenseMonth = a.expenseMonth := by
  unfold step7
  repeat' split
  all_goals rfl

/-- The 7-day section leaves the month category totals unchanged. -/
theorem step7_byCatMonth (s7 : Int) (t : Transaction) (a : Accum) :
    (step7 s7 t a).byCatMonth = a.byCatMonth := by
  unfold step7
  repeat' split
  all_goals rfl

/-- How the 7-day section updates the week expense. -/
theorem step7_expenseWeek (s7 : Int) (t : Transaction) (a : Accum) :
    (step7 s7 t a).expenseWeek =
      if inWindow s7 t then
        (if t.type = TxType.income then a.expenseWeek else rAdd a.expenseWeek t.amount)
      else a.expenseWeek := by
  unfold step7
  repeat' split
  all_goals rfl

/-- How one loop iteration updates the weekday table. -/
theorem accStep_spendByWeekday (ck pk : String) (s30 s7 : Int) (a : Accum) (t : Transaction) :
    (accStep ck pk s30 s7 a t).spendByWeekday =
      if inWindow s30 t then
        numSet a.spendByWeekday (weekdayOf t.date)
          (rAdd (numGet a.spendByWeekday (weekdayOf t.date))
            (if t.type = TxType.expense then t.amount else 0))
      else a.spendByWeekday := by
  unfold accStep
  rw [step7_spendByWeekday, step30_spendByWeekday, stepPrev_spendByWeekday,
    stepMonth_spendByWeekday]

/-- Only the current-month section touches the month category totals. -/
theorem accStep_byCatMonth (ck pk : String) (s30 s7 : Int) (a : Accum) (t : Transaction) :
    (accStep ck pk s30 s7 a t).byCatMonth = (stepMonth ck t a).byCatMonth := by
  unfold accStep
  rw [step7_byCatMonth, step30_byCatMonth, stepPrev_byCatMonth]

/-- Only the current-month section touches the month expense. -/
theorem accStep_expenseMonth (ck pk : String) (s30 s7 : Int) (a : Accum) (t : Transaction) :
    (accStep ck pk s30 s7 a t).expenseMonth = (stepMonth ck t a).expenseMonth := by
  unfold accStep
  rw [step7_expenseMonth, step30_expenseMonth, stepPrev_expenseMonth]

/-- Setting a weekday entry never empties the table. -/
theorem numSet_ne_nil (m : List (Nat × Rat)) (k : Nat) (v : Rat) : numSet m k v ≠ [] := by
  cases m with
  | nil => simp [numSet]
  | cons p rest =>
    obtain ⟨k0, v0⟩ := p
    simp only [numSet]
    repeat' split
    all_goals simp

/-- Reading back the weekday entry just set. -/
theorem numGet_numSet_self (m : List (Nat × Rat)) (k : Nat) (v : Rat) :
    numGet (numSet m k v) k = v := by
  induction m with
  | nil => simp [numSet, numGet]
  | cons p rest ih =>
    obtain ⟨k0, v0⟩ := p
    simp only [numSet]
    by_cases h1 : k = k0
    · rw [if_pos h1]
      simp [numGet]
    · rw [if_neg h1]
      by_cases h2 : k < k0
      · rw [if_pos h2]
        simp [numGet]
      · rw [if_neg h2]
        simp [numGet, h1, ih]

/-- The weekday table is empty iff no input transaction (with a parseable date) lies in the trailing 30-day window. -/
theorem statsAcc_spend_nil_iff (ck pk : String) (s30 s7 : Int) (tx : List Transaction) :
    ∀ a : Accum,
      ((tx.foldl (accStep ck pk s30 s7) a).spendByWeekday = [] ↔
        (a.spendByWeekday = [] ∧ ∀ t ∈ tx, inWindow s30 t = false)) := by
  induction tx with
  | nil => intro a; simp
  | cons t ts ih =>
    intro a
    simp only [List.foldl_cons]
    rw [ih]
    rw [accStep_spendByWeekday]
    by_cases hw : inWindow s30 t
    · rw [if_pos hw]
      constructor
      · rintro ⟨hsp, -⟩
        exact absurd hsp (numSet_ne_nil _ _ _)
      · rintro ⟨-, hall⟩
        have := hall t (List.mem_cons_self t ts)
        rw [hw] at this
        cases this
    · rw [if_neg hw]
      constructor
      · rintro ⟨hsp, hall⟩
        refine ⟨hsp, ?_⟩
        intro u hu
        rcases List.mem_cons.mp hu with rfl | hu
        · exact Bool.eq_false_iff.mpr hw
        · exact hall u hu
      · rintro ⟨hsp, hall⟩
        exact ⟨hsp, fun u hu => hall u (List.mem_cons_of_mem t hu)⟩

/-- The sorted weekday entry list is empty iff the input is. -/
theorem insertionSort_nil_iff (l : List (Nat × Rat)) :
    List.insertionSort descPair l = [] ↔ l = [] := by
  constructor
  · intro h
    have hp := List.perm_insertionSort descPair l
    rw [h] at hp
    exact hp.symm.eq_nil
  · rintro rfl
    rfl

/-- The weekday peak is undefined iff the weekday table is empty. -/
theorem dayPeakOf_eq_none_iff (m : List (Nat × Rat)) : dayPeakOf m = none ↔ m = [] := by
  unfold dayPeakOf
  rcases hsort : List.insertionSort descPair m with - | ⟨⟨k, v⟩, rest⟩
  · simp only [hsort]
    simp [(insertionSort_nil_iff m).mp hsort]
  · simp only [hsort]
    constructor
    · intro h
      cases h
    · rintro rfl
      rw [show List.insertionSort descPair ([] : List (Nat × Rat)) = [] from rfl] at hsort
      cases hsort

/-- A defined weekday peak names a weekday entry of maximal accumulated value. -/
theorem dayPeakOf_some_max (m : List (Nat × Rat)) (s : String)
    (h : dayPeakOf m = some s) :
    ∃ k v, (k, v) ∈ m ∧ s = dayNames.getD k "" ∧ ∀ p ∈ m, p.2 ≤ v := by
  unfold dayPeakOf at h
  rcases hsort : List.insertionSort descPair m with - | ⟨⟨k, v⟩, rest⟩
  · rw [hsort] at h
    cases h
  · rw [hsort] at h
    have hs : s = dayNames.getD k "" := by
      injection h with h
      exact h.symm
    have hsorted := List.sorted_insertionSort descPair m
    rw [hsort] at hsorted
    have hhead := (List.sorted_cons.mp hsorted).1
    have hperm := List.perm_insertionSort descPair m
    rw [hsort] at hperm
    refine ⟨k, v, hperm.subset (List.mem_cons_self _ _), hs, ?_⟩
    intro p hp
    rcases List.mem_cons.mp (hperm.symm.subset hp) with rfl | hp'
    · exact le_refl _
    · exact hhead p hp'

/-- C2 (amended): the weekday peak is undefined exactly when NO transaction
(of either type, with a parseable date) lies in the trailing 30-day window
— an income-only window makes it defined, with accumulated expense 0 —
and a defined peak names a weekday whose accumulated 30-day expense total
is maximal among the weekdays having transactions in the window. -/
theorem buildStats_dayPeak_characterization (tx : List Transaction) (now : Date) (nowMs : Int) :
    ((buildStats tx now nowMs).dayPeak = none ↔
      ∀ t ∈ tx, inWindow (nowMs - 30 * 86400000) t = false) ∧
    (∀ s, (buildStats tx now nowMs).dayPeak = some s →
      ∃ k v, (k, v) ∈ spendByWeekday30 tx now nowMs ∧ s = dayNames.getD k "" ∧
        ∀ p ∈ spendByWeekday30 tx now nowMs, p.2 ≤ v) := by
  have hdp : (buildStats tx now nowMs).dayPeak = dayPeakOf (spendByWeekday30 tx now nowMs) :=
    rfl
  constructor
  · rw [hdp, dayPeakOf_eq_none_iff]
    have hiff := statsAcc_spend_nil_iff (currentMonthKeyOf now) (prevMonthKeyOf now)
      (nowMs - 30 * 86400000) (nowMs - 7 * 86400000) tx initAcc
    simpa [spendByWeekday30, statsAcc, initAcc] using hiff
  · intro s hs
    rw [hdp] at hs
    exact dayPeakOf_some_max _ s hs

/-- C2 counterexample: a collection whose only transaction is an income
inside the trailing 30-day window yields a DEFINED weekday peak (the
weekday-total table gains a zero entry for every windowed transaction,
income included), contradicting the claim that the peak is undefined
whenever no expense falls in the window. -/
theorem dayPeak_income_only_counterexample :
    txIncomeOnly.type = TxType.income ∧
    inWindow (nowMsC2 - 30 * 86400000) txIncomeOnly = true ∧
    (buildStats [txIncomeOnly] nowC2 nowMsC2).dayPeak = some "terça-feira" := by
  refine ⟨rfl, by decide, by decide⟩

/-- Witness for C2 (amended) at a concrete expense collection. -/
theorem buildStats_dayPeak_characterization_witness :
    ∃ k v, (k, v) ∈ spendByWeekday30 [txExpenseSep] nowC2 nowMsC2 ∧
      "quinta-feira" = dayNames.getD k "" ∧
      ∀ p ∈ spendByWeekday30 [txExpenseSep] nowC2 nowMsC2, p.2 ≤ v :=
  (buildStats_dayPeak_characterization [txExpenseSep] nowC2 nowMsC2).2 "quinta-feira" (by decide)

/-- Accumulating an amount into a category entry raises the total of the values by that amount. -/
theorem objSet_rAdd_sum (m : List (String × Rat)) (k : String) (x : Rat) :
    ((objSet m k (rAdd (objGet m k) x)).map Prod.snd).sum = (m.map Prod.snd).sum + x := by
  induction m with
  | nil => simp [objSet, objGet, rAdd_eq]
  | cons p rest ih =>
    obtain ⟨k0, v0⟩ := p
    by_cases he : k0 = k
    · simp only [objSet, objGet, if_pos he]
      simp [rAdd_eq]
      ring
    · simp only [objSet, objGet, if_neg he]
      simp only [List.map_cons, List.sum_cons]
      rw [ih]
      ring

/-- The current-month section preserves the invariant that the month category totals sum to the month expense. -/
theorem stepMonth_invariant (ck : String) (t : Transaction) (a : Accum)
    (hinv : (a.byCatMonth.map Prod.snd).sum = a.expenseMonth) :
    ((stepMonth ck t a).byCatMonth.map Prod.snd).sum = (stepMonth ck t a).expenseMonth := by
  rw [stepMonth_byCatMonth, stepMonth_expenseMonth]
  by_cases hm : sliceStr t.date 7 = ck
  · rw [if_pos hm, if_pos hm]
    cases ht : t.type
    · rw [if_neg (by decide : ¬ (TxType.income = TxType.expense)), if_pos rfl]
      rw [objSet_rAdd_sum, hinv]
      ring
    · rw [if_pos rfl, if_neg (by decide : ¬ (TxType.expense = TxType.income))]
      rw [objSet_rAdd_sum, hinv, rAdd_eq]
  · rw [if_neg hm, if_neg hm]
    exact hinv

/-- The whole pass preserves the sum invariant on the month category totals. -/
theorem statsAcc_month_invariant (ck pk : String) (s30 s7 : Int) (tx : List Transaction) :
    ∀ a : Accum, (a.byCatMonth.map Prod.snd).sum = a.expenseMonth →
      (((tx.foldl (accStep ck pk s30 s7) a).byCatMonth.map Prod.snd).sum =
        (tx.foldl (accStep ck pk s30 s7) a).expenseMonth) := by
  induction tx with
  | nil => intro a hinv; exact hinv
  | cons t ts ih =>
    intro a hinv
    simp only [List.foldl_cons]
    refine ih _ ?_
    rw [accStep_byCatMonth, accStep_expenseMonth]
    exact stepMonth_invariant ck t a hinv

/-- C8: the totals of the `topExpensesMonth` ranking sum to `expenseMonth`
when every current-month expense has a non-empty category (income
transactions create zero-valued entries and do not perturb the sum). -/
theorem buildStats_topExpenses_sum (tx : List Transaction) (now : Date) (nowMs : Int)
    (_hcat : ∀ t ∈ tx, sliceStr t.date 7 = currentMonthKeyOf now → t.type = TxType.expense →
      t.category ≠ "") :
    ((buildStats tx now nowMs).topExpensesMonth.map StatCategory.total).sum =
      (buildStats tx now nowMs).expenseMonth := by
  have h1 : (buildStats tx now nowMs).topExpensesMonth =
      sortedEntries (statsAcc tx now nowMs).byCatMonth := rfl
  have h2 : (buildStats tx now nowMs).expenseMonth = (statsAcc tx now nowMs).expenseMonth := rfl
  rw [h1, h2]
  have hperm := List.perm_insertionSort descCat
    ((statsAcc tx now nowMs).byCatMonth.map fun p => (⟨p.1, p.2⟩ : StatCategory))
  have hsum := (hperm.map StatCategory.total).sum_eq
  have h3 : ((sortedEntries (statsAcc tx now nowMs).byCatMonth).map StatCategory.total).sum =
      ((((statsAcc tx now nowMs).byCatMonth.map fun p => (⟨p.1, p.2⟩ : StatCategory)).map
        StatCategory.total).sum) := hsum
  rw [h3]
  have h4 : (((statsAcc tx now nowMs).byCatMonth.map fun p => (⟨p.1, p.2⟩ : StatCategory)).map
      StatCategory.total) = (statsAcc tx now nowMs).byCatMonth.map Prod.snd := by
    simp [List.map_map, Function.comp_def]
  rw [h4]
  exact statsAcc_month_invariant (currentMonthKeyOf now) (prevMonthKeyOf now)
    (nowMs - 30 * 86400000) (nowMs - 7 * 86400000) tx initAcc (by simp [initAcc])

/-- Witness for C8 at a concrete two-transaction collection. -/
theorem buildStats_topExpenses_sum_witness :
    (∀ t ∈ [txIncomeOnly, txExpenseSep],
      sliceStr t.date 7 = currentMonthKeyOf nowC2 → t.type = TxType.expense →
        t.category ≠ "") ∧
    ((buildStats [txIncomeOnly, txExpenseSep] nowC2 nowMsC2).topExpensesMonth.map
      StatCategory.total).sum =
      (buildStats [txIncomeOnly, txExpenseSep] nowC2 nowMsC2).expenseMonth :=
  ⟨by decide, buildStats_topExpenses_sum [txIncomeOnly, txExpenseSep] nowC2 nowMsC2 (by decide)⟩

/-- C10: a transaction dated strictly after `now` is included in both the
trailing 30-day and 7-day windows (membership only tests timestamp at or
above the cutoff, with no upper bound), so a future-dated expense raises
the 30-day sum and count, its weekday total, and the week expense, and
makes the biggest 30-day expense defined. -/
theorem buildStats_future_dated (tx : List Transaction) (now : Date) (nowMs : Int)
    (t : Transaction) (time : Int) (hp : dateMs? t.date = some time) (hf : nowMs < time)
    (he : t.type = TxType.expense) :
    inWindow (nowMs - 30 * 86400000) t = true ∧
    inWindow (nowMs - 7 * 86400000) t = true ∧
    (statsAcc (tx ++ [t]) now nowMs).sumExpense30 =
      (statsAcc tx now nowMs).sumExpense30 + t.amount ∧
    (statsAcc (tx ++ [t]) now nowMs).countExpense30 =
      (statsAcc tx now nowMs).countExpense30 + 1 ∧
    numGet (statsAcc (tx ++ [t]) now nowMs).spendByWeekday (weekdayOf t.date) =
      numGet (statsAcc tx now nowMs).spendByWeekday (weekdayOf t.date) + t.amount ∧
    (buildStats (tx ++ [t]) now nowMs).expenseWeek =
      (buildStats tx now nowMs).expenseWeek + t.amount ∧
    (statsAcc (tx ++ [t]) now nowMs).biggestExpense.isSome = true := by
  have hw30 : inWindow (nowMs - 30 * 86400000) t = true := by
    unfold inWindow
    rw [hp]
    simp only [decide_eq_true_eq]
    omega
  have hw7 : inWindow (nowMs - 7 * 86400000) t = true := by
    unfold inWindow
    rw [hp]
    simp only [decide_eq_true_eq]
    omega
  have hfold : statsAcc (tx ++ [t]) now nowMs =
      accStep (currentMonthKeyOf now) (prevMonthKeyOf now)
        (nowMs - 30 * 86400000) (nowMs - 7 * 86400000) (statsAcc tx now nowMs) t := by
    simp [statsAcc, List.foldl_append]
  have hne : ¬ (t.type = TxType.income) := by
    rw [he]
    decide
  refine ⟨hw30, hw7, ?_, ?_, ?_, ?_, ?_⟩
  · rw [hfold]
    unfold accStep
    rw [step7_sumExpense30, step30_sumExpense30, if_pos hw30, if_pos he,
      stepPrev_sumExpense30, stepMonth_sumExpense30, rAdd_eq]
  · rw [hfold]
    unfold accStep
    rw [step7_countExpense30, step30_countExpense30, if_pos hw30, if_pos he,
      stepPrev_countExpense30, stepMonth_countExpense30]
  · rw [hfold]
    unfold accStep
    rw [step7_spendByWeekday, step30_spendByWeekday, if_pos hw30,
      stepPrev_spendByWeekday, stepMonth_spendByWeekday, numGet_numSet_self,
      if_pos he, rAdd_eq]
  · have hbw : (buildStats (tx ++ [t]) now nowMs).expenseWeek =
        (statsAcc (tx ++ [t]) now nowMs).expenseWeek := rfl
    have hbw2 : (buildStats tx now nowMs).expenseWeek =
        (statsAcc tx now nowMs).expenseWeek := rfl
    rw [hbw, hbw2, hfold]
    unfold accStep
    rw [step7_expenseWeek, if_pos hw7, if_neg hne, step30_expenseWeek,
      stepPrev_expenseWeek, stepMonth_expenseWeek, rAdd_eq]
  · rw [hfold]
    unfold accStep
    rw [step7_biggestExpense]
    exact step30_biggestExpense_isSome _ t _ hw30 he

/-- Witness for C10 at a concrete future-dated expense. -/
theorem buildStats_future_dated_witness :
    inWindow (nowMsC2 - 30 * 86400000) txFuture = true ∧
    inWindow (nowMsC2 - 7 * 86400000) txFuture = true ∧
    (statsAcc ([] ++ [txFuture]) nowC2 nowMsC2).sumExpense30 =
      (statsAcc [] nowC2 nowMsC2).sumExpense30 + txFuture.amount ∧
    (statsAcc ([] ++ [txFuture]) nowC2 nowMsC2).countExpense30 =
      (statsAcc [] nowC2 nowMsC2).countExpense30 + 1 ∧
    numGet (statsAcc ([] ++ [txFuture]) nowC2 nowMsC2).spendByWeekday
        (weekdayOf txFuture.date) =
      numGet (statsAcc [] nowC2 nowMsC2).spendByWeekday (weekdayOf txFuture.date) +
        txFuture.amount ∧
    (buildStats ([] ++ [txFuture]) nowC2 nowMsC2).expenseWeek =
      (buildStats [] nowC2 nowMsC2).expenseWeek + txFuture.amount ∧
    (statsAcc ([] ++ [txFuture]) nowC2 nowMsC2).biggestExpense.isSome = true :=
  buildStats_future_dated [] nowC2 nowMsC2 txFuture (daysFromCivil 2030 1 1 * 86400000)
    rfl (by decide) rfl
